import Mathlib

/-!
Shallow embedding of the two-asset constant-product AMM liquidity pool
(`liquidity_pool/src/contract.rs`) and a verification of its specification.

Conventions of the embedding:
* All token amounts are `Int` (the contract uses `i128`; the claims under
  study are about the arithmetic, not about 128-bit overflow, which the
  build traps on).
* Rust `/` on `i128` truncates toward zero, so it is embedded as `Int.tdiv`.
* Rust `panic!` aborts the whole invocation with no state change; an
  operation is therefore embedded as a function returning
  `Except Err (result × PoolState)`: on `.error` no successor state exists,
  which models the all-or-nothing rollback.
* Each operation additionally returns the ordered list of externally visible
  actions it attempted before finishing or failing (reward settlement, token
  transfers, reserve writes), so ordering properties can be stated.
* The contract's collaborators (the token contracts and the persistent
  store) are folded into one `PoolState` record: `balance_a`/`balance_b` are
  the pool contract's actual holdings of the two tokens, `balance_shares`
  its holding of its own share token, `total_shares` the share token's total
  supply, `user_shares` the calling user's share-token balance, and
  `reserve_a`/`reserve_b` the stored reserves.
-/

namespace SorobanAmm

/-- Failure kinds of the contract. Each corresponds to a distinct abort site
in the source (a panic message or an arithmetic trap). -/
inductive Err where
  | AlreadyInitialized
  | InvalidOrdering
  | SlippageExceeded
  | InvariantViolated
  | MinNotSatisfied
  | InvalidAmount
  | DivisionByZero
  | ArithmeticOverflow
deriving DecidableEq, Repr

/-- Externally visible actions an operation performs, in execution order. -/
inductive Event where
  | settlePool
  | settleUser
  | transferIn
  | transferOut
  | mintShares
  | burnShares
  | setReserves
  | setConfig
  | payReward
deriving DecidableEq, Repr

/-- `rewards_storage::PoolRewardConfig`: emission rate (tokens per second,
fixed point) and the absolute expiration timestamp. -/
structure PoolRewardConfig where
  tps : Int
  expired_at : Nat
deriving DecidableEq, Repr

/-- `rewards_storage::PoolRewardData`: the global reward accumulator. -/
structure PoolRewardData where
  block : Nat
  accumulated : Int
  last_time : Nat
deriving DecidableEq, Repr

/-- Per-user reward record: last seen accumulator block, accumulator
snapshot, and the unclaimed balance. -/
structure UserRewardData where
  last_block : Nat
  pool_accumulated : Int
  to_claim : Int
deriving DecidableEq, Repr

/-- The pool's full state, including the external token balances it
observes through the token clients. -/
structure PoolState where
  reserve_a : Int
  reserve_b : Int
  balance_a : Int
  balance_b : Int
  balance_shares : Int
  total_shares : Int
  config : PoolRewardConfig
  data : PoolRewardData
  user : UserRewardData
  user_shares : Int
deriving DecidableEq, Repr

/-- Modelled from the spec: `rewards::manager::update_rewards_data` is not
among the listed source files (only its call sites in `contract.rs` are).
Spec section 4.4: elapsed time is capped at the config expiration; when time
has elapsed the sequence counter is bumped and the settlement time advances
unconditionally, while the accumulator grows by
`elapsed * rate_per_second / total_shares` only when shares exist. -/
def update_rewards_data (now : Nat) (total_shares : Int) (cfg : PoolRewardConfig)
    (d : PoolRewardData) : PoolRewardData :=
  let t := min now cfg.expired_at
  if d.last_time < t then
    { block := d.block + 1
      accumulated :=
        if 0 < total_shares then
          d.accumulated + Int.tdiv (((t : Int) - (d.last_time : Int)) * cfg.tps) total_shares
        else d.accumulated
      last_time := t }
  else d

/-- Modelled from the spec: `rewards::manager::update_user_reward` is not
among the listed source files. Spec section 4.5: the user's unclaimed
balance grows by the user's share balance times the accumulator delta since
the user's snapshot, then the snapshot and sequence are refreshed. -/
def update_user_reward (d : PoolRewardData) (u : UserRewardData)
    (user_shares : Int) : UserRewardData :=
  { last_block := d.block
    pool_accumulated := d.accumulated
    to_claim := u.to_claim + user_shares * (d.accumulated - u.pool_accumulated) }

/-- Equality on `Except` results is decidable when both components are. -/
instance exceptDecEq {ε α : Type} [DecidableEq ε] [DecidableEq α] :
    DecidableEq (Except ε α) := fun x y =>
  match x, y with
  | .ok a, .ok b =>
    if h : a = b then isTrue (by rw [h]) else isFalse (by simp [h])
  | .error a, .error b =>
    if h : a = b then isTrue (by rw [h]) else isFalse (by simp [h])
  | .ok _, .error _ => isFalse (by simp)
  | .error _, .ok _ => isFalse (by simp)

/-- The contract's `initialize` (that name is a Lean keyword, hence
`init_pool` here): fails when already initialized (an admin is set), then
fails unless `token_a < token_b` under the canonical address ordering
(addresses are embedded as naturals with their canonical order), otherwise
produces the fresh pool state with zero reserves and all-zero reward
accumulator and config. -/
def init_pool (st : Option PoolState) (token_a token_b : Nat) :
    Except Err PoolState :=
  if st.isSome then .error .AlreadyInitialized
  else if token_b ≤ token_a then .error .InvalidOrdering
  else .ok
    { reserve_a := 0, reserve_b := 0, balance_a := 0, balance_b := 0
      balance_shares := 0, total_shares := 0
      config := { tps := 0, expired_at := 0 }
      data := { block := 0, accumulated := 0, last_time := 0 }
      user := { last_block := 0, pool_accumulated := 0, to_claim := 0 }
      user_shares := 0 }

/-- `deposit`: settles the global accumulator and the caller's reward
record, transfers the accepted amounts in, recomputes shares to mint from
the post-transfer balances, mints, and stores the balances as the new
reserves. The accepted amounts `in_a`/`in_b` are parameters here:
`pool::get_deposit_amounts`, which chooses them, is not among the listed
source files, so the embedding quantifies over every possible choice. -/
def deposit (s : PoolState) (now : Nat) (in_a in_b : Int) :
    List Event × Except Err ((Int × Int) × PoolState) :=
  let reserve_a := s.reserve_a
  let reserve_b := s.reserve_b
  let data := update_rewards_data now s.total_shares s.config s.data
  let user := update_user_reward data s.user s.user_shares
  let balance_a := s.balance_a + in_a
  let balance_b := s.balance_b + in_b
  let total_shares := s.total_shares
  let new_total_shares :=
    if reserve_a > 0 ∧ reserve_b > 0 then
      let shares_a := Int.tdiv (balance_a * total_shares) reserve_a
      let shares_b := Int.tdiv (balance_b * total_shares) reserve_b
      min shares_a shares_b
    else
      Int.sqrt (balance_a * balance_b)
  ([.settlePool, .settleUser, .transferIn, .transferIn, .mintShares, .setReserves],
   .ok ((in_a, in_b),
    { s with
      data := data, user := user
      balance_a := balance_a, balance_b := balance_b
      total_shares := total_shares + (new_total_shares - total_shares)
      user_shares := s.user_shares + (new_total_shares - total_shares)
      reserve_a := balance_a, reserve_b := balance_b }))

/-- The reserve of the asset being sold, selected by `buy_a`. -/
abbrev reserveSell (s : PoolState) (buy_a : Bool) : Int :=
  if buy_a then s.reserve_b else s.reserve_a

/-- The reserve of the asset being bought, selected by `buy_a`. -/
abbrev reserveBuy (s : PoolState) (buy_a : Bool) : Int :=
  if buy_a then s.reserve_a else s.reserve_b

/-- The denominator `(reserve_buy - out) * 997` of the pricing formula. -/
abbrev swapDenom (s : PoolState) (buy_a : Bool) (out : Int) : Int :=
  (reserveBuy s buy_a - out) * 997

/-- The required input `n / d + 1` computed by `swap` and
`estimate_swap_out` (Rust truncating division). -/
abbrev swapSellAmount (s : PoolState) (buy_a : Bool) (out : Int) : Int :=
  Int.tdiv (reserveSell s buy_a * out * 1000) (swapDenom s buy_a out) + 1

/-- The closure `new_invariant_factor` in `swap`: the fee-adjusted invariant
factor of one side, from its post-transfer balance, stored reserve and the
outgoing amount on that side. -/
def new_invariant_factor (balance reserve out : Int) : Int :=
  let delta := balance - reserve - out
  let adj_delta := if delta > 0 then 997 * delta else 1000 * delta
  1000 * reserve + adj_delta

/-- Token-a balance after the sold amount has been transferred in. -/
abbrev swapMidBalA (s : PoolState) (buy_a : Bool) (out : Int) : Int :=
  if buy_a then s.balance_a else s.balance_a + swapSellAmount s buy_a out

/-- Token-b balance after the sold amount has been transferred in. -/
abbrev swapMidBalB (s : PoolState) (buy_a : Bool) (out : Int) : Int :=
  if buy_a then s.balance_b + swapSellAmount s buy_a out else s.balance_b

/-- The fee-adjusted constant-product acceptance check of `swap`, stated on
the post-transfer balances. -/
abbrev swapInvariantHolds (s : PoolState) (buy_a : Bool) (out : Int) : Prop :=
  1000 * s.reserve_a * (1000 * s.reserve_b) ≤
    new_invariant_factor (swapMidBalA s buy_a out) s.reserve_a (if buy_a then out else 0) *
    new_invariant_factor (swapMidBalB s buy_a out) s.reserve_b (if buy_a then 0 else out)

/-- `swap`: prices the requested output, checks the caller's slippage bound,
transfers the sold token in, re-reads balances, verifies the fee-adjusted
constant-product invariant, transfers the bought token out, and stores the
post-trade balances as reserves. There is no reward settlement and no
explicit guard on `out` against the buy-side reserve: when
`out = reserve_buy` the division denominator is zero, which traps. -/
def swap (s : PoolState) (buy_a : Bool) (out in_max : Int) :
    List Event × Except Err (Int × PoolState) :=
  let reserve_a := s.reserve_a
  let reserve_b := s.reserve_b
  if swapDenom s buy_a out = 0 then ([], .error .DivisionByZero)
  else
    let sell_amount := swapSellAmount s buy_a out
    if sell_amount > in_max then ([], .error .SlippageExceeded)
    else
      let balance_a := swapMidBalA s buy_a out
      let balance_b := swapMidBalB s buy_a out
      let out_a := if buy_a then out else 0
      let out_b := if buy_a then 0 else out
      let new_inv_a := new_invariant_factor balance_a reserve_a out_a
      let new_inv_b := new_invariant_factor balance_b reserve_b out_b
      let old_inv_a := 1000 * reserve_a
      let old_inv_b := 1000 * reserve_b
      if new_inv_a * new_inv_b < old_inv_a * old_inv_b then
        ([.transferIn], .error .InvariantViolated)
      else
        ([.transferIn, .transferOut, .setReserves],
         .ok (sell_amount,
          { s with
            balance_a := balance_a - out_a
            balance_b := balance_b - out_b
            reserve_a := balance_a - out_a
            reserve_b := balance_b - out_b }))

/-- `estimate_swap_out`: the read-only pricing formula, identical
arithmetic to the pricing step of `swap`. -/
def estimate_swap_out (s : PoolState) (buy_a : Bool) (out : Int) :
    Except Err Int :=
  if swapDenom s buy_a out = 0 then .error .DivisionByZero
  else .ok (swapSellAmount s buy_a out)

/-- `withdraw`: settles rewards, transfers the redeemed shares in, pays out
both assets pro rata to the pool's whole share-claim balance, burns that
balance, and stores the post-payout balances as reserves. -/
def withdraw (s : PoolState) (now : Nat) (share_amount min_a min_b : Int) :
    List Event × Except Err ((Int × Int) × PoolState) :=
  let data := update_rewards_data now s.total_shares s.config s.data
  let user := update_user_reward data s.user s.user_shares
  let balance_shares := s.balance_shares + share_amount
  let balance_a := s.balance_a
  let balance_b := s.balance_b
  let total_shares := s.total_shares
  if total_shares = 0 then
    ([.settlePool, .settleUser, .transferIn], .error .DivisionByZero)
  else
    let out_a := Int.tdiv (balance_a * balance_shares) total_shares
    let out_b := Int.tdiv (balance_b * balance_shares) total_shares
    if out_a < min_a ∨ out_b < min_b then
      ([.settlePool, .settleUser, .transferIn], .error .MinNotSatisfied)
    else
      ([.settlePool, .settleUser, .transferIn, .burnShares,
        .transferOut, .transferOut, .setReserves],
       .ok ((out_a, out_b),
        { s with
          data := data, user := user
          user_shares := s.user_shares - share_amount
          balance_shares := 0
          total_shares := total_shares - balance_shares
          balance_a := balance_a - out_a
          balance_b := balance_b - out_b
          reserve_a := balance_a - out_a
          reserve_b := balance_b - out_b }))

/-- Modelled from the spec: `rewards::manager::claim_reward` is not among
the listed source files. Spec section 4.5: settle the global accumulator,
settle the user's record, zero the unclaimed balance and pay it out. -/
def claim (s : PoolState) (now : Nat) :
    List Event × Except Err (Int × PoolState) :=
  let data := update_rewards_data now s.total_shares s.config s.data
  let user := update_user_reward data s.user s.user_shares
  let reward := user.to_claim
  ([.settlePool, .settleUser, .payReward],
   .ok (reward, { s with data := data, user := { user with to_claim := 0 } }))

/-- `set_rewards_config`: settles the global accumulator at the old config,
then installs the new config with
`tps = amount / (expired_at - now)`. The subtraction is on `u64` (traps on
underflow under the workspace's overflow checks) and the division traps on a
zero divisor, so the call fails whenever `expired_at ≤ now`. -/
def set_rewards_config (s : PoolState) (now expired_at : Nat) (amount : Int) :
    List Event × Except Err PoolState :=
  let data := update_rewards_data now s.total_shares s.config s.data
  if expired_at < now then ([.settlePool], .error .ArithmeticOverflow)
  else if expired_at = now then ([.settlePool], .error .DivisionByZero)
  else
    ([.settlePool, .setConfig],
     .ok { s with
       data := data
       config := { tps := Int.tdiv amount ((expired_at : Int) - (now : Int))
                   expired_at := expired_at } })

/-- A running pool used as a concrete evaluation point: reserves and
balances of 1000 each, 1000 shares outstanding, all held by the user, no
reward emission configured. -/
def st0 : PoolState :=
  { reserve_a := 1000, reserve_b := 1000, balance_a := 1000, balance_b := 1000
    balance_shares := 0, total_shares := 1000
    config := { tps := 0, expired_at := 0 }
    data := { block := 0, accumulated := 0, last_time := 0 }
    user := { last_block := 0, pool_accumulated := 0, to_claim := 0 }
    user_shares := 1000 }

/-- A freshly initialized, empty pool. -/
def emptyPool : PoolState :=
  { reserve_a := 0, reserve_b := 0, balance_a := 0, balance_b := 0
    balance_shares := 0, total_shares := 0
    config := { tps := 0, expired_at := 0 }
    data := { block := 0, accumulated := 0, last_time := 0 }
    user := { last_block := 0, pool_accumulated := 0, to_claim := 0 }
    user_shares := 0 }

/-- The state `swap` commits on success: post-trade balances, mirrored into
the reserves. -/
def swapFinal (s : PoolState) (buy_a : Bool) (out : Int) : PoolState :=
  { s with
    balance_a := swapMidBalA s buy_a out - (if buy_a then out else 0)
    balance_b := swapMidBalB s buy_a out - (if buy_a then 0 else out)
    reserve_a := swapMidBalA s buy_a out - (if buy_a then out else 0)
    reserve_b := swapMidBalB s buy_a out - (if buy_a then 0 else out) }

/-- The total share count `deposit` arrives at: the proportional minimum
when both prior reserves are positive, the integer square root of the
balance product otherwise. -/
def depositNewTotal (s : PoolState) (in_a in_b : Int) : Int :=
  if s.reserve_a > 0 ∧ s.reserve_b > 0 then
    min (Int.tdiv ((s.balance_a + in_a) * s.total_shares) s.reserve_a)
        (Int.tdiv ((s.balance_b + in_b) * s.total_shares) s.reserve_b)
  else Int.sqrt ((s.balance_a + in_a) * (s.balance_b + in_b))

/-- The state `deposit` commits. -/
def depositFinal (s : PoolState) (now : Nat) (in_a in_b : Int) : PoolState :=
  { s with
    data := update_rewards_data now s.total_shares s.config s.data
    user := update_user_reward
      (update_rewards_data now s.total_shares s.config s.data) s.user s.user_shares
    balance_a := s.balance_a + in_a
    balance_b := s.balance_b + in_b
    total_shares := s.total_shares + (depositNewTotal s in_a in_b - s.total_shares)
    user_shares := s.user_shares + (depositNewTotal s in_a in_b - s.total_shares)
    reserve_a := s.balance_a + in_a
    reserve_b := s.balance_b + in_b }

/-- The token-a payout of `withdraw` for a transferred-in share amount. -/
def withdrawOutA (s : PoolState) (sa : Int) : Int :=
  Int.tdiv (s.balance_a * (s.balance_shares + sa)) s.total_shares

/-- The token-b payout of `withdraw` for a transferred-in share amount. -/
def withdrawOutB (s : PoolState) (sa : Int) : Int :=
  Int.tdiv (s.balance_b * (s.balance_shares + sa)) s.total_shares

/-- The state `withdraw` commits on success. -/
def withdrawFinal (s : PoolState) (now : Nat) (sa : Int) : PoolState :=
  { s with
    data := update_rewards_data now s.total_shares s.config s.data
    user := update_user_reward
      (update_rewards_data now s.total_shares s.config s.data) s.user s.user_shares
    user_shares := s.user_shares - sa
    balance_shares := 0
    total_shares := s.total_shares - (s.balance_shares + sa)
    balance_a := s.balance_a - withdrawOutA s sa
    balance_b := s.balance_b - withdrawOutB s sa
    reserve_a := s.balance_a - withdrawOutA s sa
    reserve_b := s.balance_b - withdrawOutB s sa }

/-- A pool whose actual token-a holding (500) has fallen below the stored
reserve (1000): the one situation in which the invariant gate fires. -/
def stDrained : PoolState :=
  { st0 with balance_a := 500 }

/-- A pool that has received a donation of 100 extra token-a units: the
actual balance (200) exceeds the stored reserve (100). -/
def stDonated : PoolState :=
  { reserve_a := 100, reserve_b := 100, balance_a := 200, balance_b := 100
    balance_shares := 0, total_shares := 100
    config := { tps := 0, expired_at := 0 }
    data := { block := 0, accumulated := 0, last_time := 0 }
    user := { last_block := 0, pool_accumulated := 0, to_claim := 0 }
    user_shares := 100 }

/-- Characterization of a successful `swap`: it reached and passed the
pricing, slippage and invariant gates, returned the computed input amount
and committed the post-trade state. -/
lemma swap_ok_elim {s : PoolState} {buy_a : Bool} {out in_max sell : Int}
    {s' : PoolState} (h : (swap s buy_a out in_max).2 = .ok (sell, s')) :
    swapDenom s buy_a out ≠ 0 ∧ swapSellAmount s buy_a out ≤ in_max ∧
    swapInvariantHolds s buy_a out ∧ sell = swapSellAmount s buy_a out ∧
    s' = swapFinal s buy_a out := by
  by_cases hd : swapDenom s buy_a out = 0
  · simp [swap, hd] at h
  · by_cases hm : swapSellAmount s buy_a out > in_max
    · simp [swap, hd, hm] at h
    · by_cases hc :
        new_invariant_factor (swapMidBalA s buy_a out) s.reserve_a
            (if buy_a then out else 0) *
          new_invariant_factor (swapMidBalB s buy_a out) s.reserve_b
            (if buy_a then 0 else out) <
          1000 * s.reserve_a * (1000 * s.reserve_b)
      · simp [swap, hd, hm, hc] at h
      · simp only [swap, hd, hm, hc, if_false, if_neg, ite_false] at h
        refine ⟨hd, not_lt.mp hm, not_lt.mp hc, ?_, ?_⟩
        · exact (Prod.mk.injEq _ _ _ _ ▸ (Except.ok.injEq _ _ ▸ h.symm)).1
        · have h' := Except.ok.inj h
          have := (Prod.mk.injEq _ _ _ _).mp h'
          exact this.2.symm

/-- A successful `swap` run exists whenever all three gates pass. -/
lemma swap_ok_intro (s : PoolState) (buy_a : Bool) (out in_max : Int)
    (hd : swapDenom s buy_a out ≠ 0)
    (hm : swapSellAmount s buy_a out ≤ in_max)
    (hc : swapInvariantHolds s buy_a out) :
    swap s buy_a out in_max =
      ([.transferIn, .transferOut, .setReserves],
       .ok (swapSellAmount s buy_a out, swapFinal s buy_a out)) := by
  simp only [swap, hd, hm.not_lt, not_lt.mpr, ite_false, if_neg, not_lt_of_le]
  simp [hd, not_lt.mpr hm, not_lt.mpr hc, swapFinal]

/-- Claim C1: `swap` succeeds only if the fee-adjusted constant-product
check holds — for each side `delta = balance - reserve - out_side`, scaled
by 997 when positive and 1000 otherwise, gives
`new_factor = 1000 * reserve + adjusted_delta`, and the trade is accepted
iff `new_factor_a * new_factor_b ≥ (1000*reserve_a) * (1000*reserve_b)`;
when the check fails the whole call aborts with `InvariantViolated` having
attempted only the inbound transfer, so no reserve update is applied. -/
theorem swap_invariant_gate (s : PoolState) (buy_a : Bool) (out in_max : Int) :
    (∀ sell s', (swap s buy_a out in_max).2 = .ok (sell, s') →
      swapInvariantHolds s buy_a out)
    ∧ (swapDenom s buy_a out ≠ 0 → swapSellAmount s buy_a out ≤ in_max →
        ¬ swapInvariantHolds s buy_a out →
        swap s buy_a out in_max = ([.transferIn], .error .InvariantViolated))
    ∧ (swapDenom s buy_a out ≠ 0 → swapSellAmount s buy_a out ≤ in_max →
        swapInvariantHolds s buy_a out →
        (swap s buy_a out in_max).2 =
          .ok (swapSellAmount s buy_a out, swapFinal s buy_a out)) := by
  refine ⟨fun sell s' h => (swap_ok_elim h).2.2.1,
          fun hd hm hc => ?_, fun hd hm hc => ?_⟩
  · simp [swap, hd, not_lt.mpr hm, not_le.mp hc]
  · rw [swap_ok_intro s buy_a out in_max hd hm hc]

/-- Witness for C1: on the drained pool the invariant gate rejects the
trade with `InvariantViolated` and no reserve write. -/
theorem swap_invariant_gate_witness :
    swap stDrained true 100 10000 = ([.transferIn], .error .InvariantViolated) :=
  (swap_invariant_gate stDrained true 100 10000).2.1
    (by decide) (by decide) (by decide)

/-- Counterexample to C2 as stated: the code divides with Rust truncating
division, not floor. On reserves (1000,1000) a quote for out = 1001 (legal
to request — there is no range guard) makes the denominator negative, where
truncation and floor differ, so `estimate_swap_out` does not return the
claimed `floor(...) + 1`. -/
theorem swap_pricing_floor_counterexample :
    estimate_swap_out st0 true 1001 ≠
      .ok (Int.fdiv (reserveSell st0 true * 1001 * 1000)
        ((reserveBuy st0 true - 1001) * 997) + 1) := by decide

/-- Claim C2 (amended): `swap` and `estimate_swap_out` compute the same
required input `trunc(reserve_sell * out * 1000 / ((reserve_buy - out) *
997)) + 1`, and whenever the quote is meaningful — `0 ≤ out < reserve_buy`
with a nonnegative sell-side reserve — truncation agrees with floor, giving
the claimed `floor(reserve_sell * out * 1000 / ((reserve_buy - out) * 997))
+ 1`; with reserves (1000,1000), `buy_a`, out 100 the answer is 112, shown
in the witness. -/
theorem swap_pricing_formula (s : PoolState) (buy_a : Bool) (out : Int)
    (hout : 0 ≤ out) (hlt : out < reserveBuy s buy_a)
    (hrs : 0 ≤ reserveSell s buy_a) :
    estimate_swap_out s buy_a out =
      .ok (Int.fdiv (reserveSell s buy_a * out * 1000)
             ((reserveBuy s buy_a - out) * 997) + 1)
    ∧ ∀ in_max sell s', (swap s buy_a out in_max).2 = .ok (sell, s') →
        sell = Int.fdiv (reserveSell s buy_a * out * 1000)
                 ((reserveBuy s buy_a - out) * 997) + 1 := by
  have hdpos : 0 < swapDenom s buy_a out :=
    mul_pos (sub_pos.mpr hlt) (by norm_num)
  have hn : 0 ≤ reserveSell s buy_a * out * 1000 :=
    mul_nonneg (mul_nonneg hrs hout) (by norm_num)
  have key : swapSellAmount s buy_a out =
      Int.fdiv (reserveSell s buy_a * out * 1000)
        ((reserveBuy s buy_a - out) * 997) + 1 := by
    show Int.tdiv _ _ + 1 = _
    rw [Int.tdiv_eq_ediv hn hdpos.le, ← Int.fdiv_eq_ediv _ hdpos.le]
  refine ⟨?_, fun in_max sell s' h => ?_⟩
  · rw [estimate_swap_out, if_neg hdpos.ne', key]
  · rw [(swap_ok_elim h).2.2.2.1, key]

/-- Witness for C2: the concrete quote of the spec, 112, both as the
evaluated pricing call and as the floor formula. -/
theorem swap_pricing_formula_witness :
    estimate_swap_out st0 true 100 = .ok 112 ∧
    (112 : Int) = Int.fdiv (reserveSell st0 true * 100 * 1000)
      ((reserveBuy st0 true - 100) * 997) + 1 := by
  have h := swap_pricing_formula st0 true 100 (by decide) (by decide) (by decide)
  refine ⟨?_, ?_⟩
  · rw [h.1]; decide
  · exact h.2 1000 112 (swapFinal st0 true 100) (by decide)

/-- Counterexample to C3 as stated: with reserves (1000,1000) and
`out = reserve_a = 1000` the swap fails with a division-by-zero trap, not
with `InvalidAmount` — no such check exists in the code. -/
theorem swap_at_reserve_counterexample :
    swap st0 true 1000 1000000 = ([], .error .DivisionByZero) ∧
    (swap st0 true 1000 1000000).2 ≠ .error .InvalidAmount := by decide

/-- Claim C3 (amended): `swap` never fails with `InvalidAmount` (the code
has no such guard); when the requested output equals the buy-side reserve
the pricing denominator is zero and the call traps before any token
transfer (empty action trace). -/
theorem swap_no_invalid_amount (s : PoolState) (buy_a : Bool)
    (out in_max : Int) :
    (swap s buy_a out in_max).2 ≠ .error .InvalidAmount
    ∧ (out = reserveBuy s buy_a →
        swap s buy_a out in_max = ([], .error .DivisionByZero)) := by
  constructor
  · intro h
    by_cases hd : swapDenom s buy_a out = 0
    · simp [swap, hd] at h
    · by_cases hm : swapSellAmount s buy_a out > in_max
      · simp [swap, hd, hm] at h
      · by_cases hc :
          new_invariant_factor (swapMidBalA s buy_a out) s.reserve_a
              (if buy_a then out else 0) *
            new_invariant_factor (swapMidBalB s buy_a out) s.reserve_b
              (if buy_a then 0 else out) <
            1000 * s.reserve_a * (1000 * s.reserve_b)
        · simp [swap, hd, hm, hc] at h
        · simp [swap, hd, hm, hc] at h
  · intro h
    have hd : swapDenom s buy_a out = 0 := by
      show (reserveBuy s buy_a - out) * 997 = 0
      rw [h, sub_self, zero_mul]
    simp [swap, hd]

/-- Witness for C3 (amended): a swap requesting more than the whole
buy-side reserve still does not produce `InvalidAmount`, and requesting
exactly the reserve traps on the zero denominator with no transfer. -/
theorem swap_no_invalid_amount_witness :
    (swap st0 true 2000 1000000).2 ≠ .error .InvalidAmount ∧
    swap st0 true 1000 500 = ([], .error .DivisionByZero) :=
  ⟨(swap_no_invalid_amount st0 true 2000 1000000).1,
   (swap_no_invalid_amount st0 true 1000 500).2 (by decide)⟩

/-- `deposit` always runs to completion, with a fixed action order and the
committed state above. -/
lemma deposit_eq (s : PoolState) (now : Nat) (in_a in_b : Int) :
    deposit s now in_a in_b =
      ([.settlePool, .settleUser, .transferIn, .transferIn,
        .mintShares, .setReserves],
       .ok ((in_a, in_b), depositFinal s now in_a in_b)) := by
  by_cases hr : s.reserve_a > 0 ∧ s.reserve_b > 0 <;>
    simp [deposit, depositFinal, depositNewTotal, hr]

/-- Characterization of a successful `withdraw`. -/
lemma withdraw_ok_elim {s : PoolState} {now : Nat} {sa ma mb : Int}
    {r : Int × Int} {s' : PoolState}
    (h : (withdraw s now sa ma mb).2 = .ok (r, s')) :
    s.total_shares ≠ 0 ∧ ma ≤ withdrawOutA s sa ∧ mb ≤ withdrawOutB s sa ∧
    r = (withdrawOutA s sa, withdrawOutB s sa) ∧ s' = withdrawFinal s now sa := by
  by_cases h0 : s.total_shares = 0
  · simp [withdraw, h0] at h
  · by_cases hmin : withdrawOutA s sa < ma ∨ withdrawOutB s sa < mb
    · have hmin' : Int.tdiv (s.balance_a * (s.balance_shares + sa)) s.total_shares < ma ∨
          Int.tdiv (s.balance_b * (s.balance_shares + sa)) s.total_shares < mb := hmin
      simp [withdraw, h0, hmin'] at h
    · push_neg at hmin
      have hmin' : ¬ (Int.tdiv (s.balance_a * (s.balance_shares + sa)) s.total_shares < ma ∨
          Int.tdiv (s.balance_b * (s.balance_shares + sa)) s.total_shares < mb) := by
        push_neg
        exact hmin
      simp only [withdraw, h0, hmin', if_neg, ite_false, if_false] at h
      have h' := Except.ok.inj h
      have hp := (Prod.mk.injEq _ _ _ _).mp h'
      exact ⟨h0, hmin.1, hmin.2, hp.1.symm, hp.2.symm⟩

/-- A successful `withdraw` run exists whenever the supply is nonzero and
both payouts meet their minimums. -/
lemma withdraw_ok_intro (s : PoolState) (now : Nat) (sa ma mb : Int)
    (h0 : s.total_shares ≠ 0)
    (ha : ma ≤ withdrawOutA s sa) (hb : mb ≤ withdrawOutB s sa) :
    withdraw s now sa ma mb =
      ([.settlePool, .settleUser, .transferIn, .burnShares,
        .transferOut, .transferOut, .setReserves],
       .ok ((withdrawOutA s sa, withdrawOutB s sa), withdrawFinal s now sa)) := by
  have hmin' : ¬ (Int.tdiv (s.balance_a * (s.balance_shares + sa)) s.total_shares < ma ∨
      Int.tdiv (s.balance_b * (s.balance_shares + sa)) s.total_shares < mb) := by
    push_neg
    exact ⟨ha, hb⟩
  simp [withdraw, h0, hmin', withdrawFinal, withdrawOutA, withdrawOutB]

/-- Counterexample to C4 as stated: a successful `swap` — a state-changing
operation that updates the reserves — performs no reward settlement at all:
its action trace has no settlement event. -/
theorem swap_skips_reward_settlement :
    ((swap st0 true 100 1000).2).isOk = true ∧
    Event.settlePool ∉ (swap st0 true 100 1000).1 ∧
    Event.setReserves ∈ (swap st0 true 100 1000).1 := by decide

/-- Claim C4 (amended): `deposit`, `withdraw`, `claim` and
`set_rewards_config` all settle the global reward accumulator first — and
the three user-facing ones settle the caller's reward record second —
before any transfer, share mint/burn, reserve write or config write; `swap`
alone performs no reward settlement. -/
theorem ops_settle_rewards_first (s : PoolState) (now ea : Nat)
    (in_a in_b sa ma mb amt : Int) :
    (deposit s now in_a in_b).1 =
      [.settlePool, .settleUser, .transferIn, .transferIn,
       .mintShares, .setReserves]
    ∧ (withdraw s now sa ma mb).1.take 2 = [.settlePool, .settleUser]
    ∧ (claim s now).1 = [.settlePool, .settleUser, .payReward]
    ∧ (set_rewards_config s now ea amt).1.head? = some .settlePool
    ∧ (∀ r s', (withdraw s now sa ma mb).2 = .ok (r, s') →
        (withdraw s now sa ma mb).1 =
          [.settlePool, .settleUser, .transferIn, .burnShares,
           .transferOut, .transferOut, .setReserves])
    ∧ (∀ s', (set_rewards_config s now ea amt).2 = .ok s' →
        (set_rewards_config s now ea amt).1 = [.settlePool, .setConfig]) := by
  refine ⟨by rw [deposit_eq], ?_, rfl, ?_, ?_, ?_⟩
  · simp only [withdraw]
    split_ifs <;> rfl
  · simp only [set_rewards_config]
    split_ifs <;> rfl
  · intro r s' h
    obtain ⟨h0, ha, hb, -, -⟩ := withdraw_ok_elim h
    rw [withdraw_ok_intro s now sa ma mb h0 ha hb]
  · intro s' h
    by_cases hlt : ea < now
    · simp [set_rewards_config, hlt] at h
    · by_cases heq : ea = now
      · simp [set_rewards_config, hlt, heq] at h
      · simp [set_rewards_config, hlt, heq]

/-- Witness for C4 (amended): concrete successful withdraw and config
calls, showing the settlement-first traces. -/
theorem ops_settle_rewards_first_witness :
    (withdraw st0 0 500 0 0).1 =
      [.settlePool, .settleUser, .transferIn, .burnShares,
       .transferOut, .transferOut, .setReserves] ∧
    (set_rewards_config st0 0 100 600).1 = [.settlePool, .setConfig] :=
  ⟨(ops_settle_rewards_first st0 0 100 0 0 500 0 0 600).2.2.2.2.1
      (500, 500) (withdrawFinal st0 0 500) (by decide),
   (ops_settle_rewards_first st0 0 100 0 0 500 0 0 600).2.2.2.2.2
      { st0 with config := { tps := 6, expired_at := 100 } } (by decide)⟩

/-- Claim C5: with positive prior supply and both prior reserves positive,
`deposit` mints
`min(balance_a * total / reserve_a, balance_b * total / reserve_b) - total`
shares from the post-transfer balances; on the very first deposit into an
empty pool it mints `floor(sqrt(balance_a * balance_b))` shares (integer,
truncating division throughout). -/
theorem deposit_minted_shares (s : PoolState) (now : Nat) (in_a in_b : Int) :
    (0 < s.total_shares → 0 < s.reserve_a → 0 < s.reserve_b →
      ∀ r s', (deposit s now in_a in_b).2 = .ok (r, s') →
        s'.total_shares - s.total_shares =
          min (Int.tdiv ((s.balance_a + in_a) * s.total_shares) s.reserve_a)
              (Int.tdiv ((s.balance_b + in_b) * s.total_shares) s.reserve_b)
            - s.total_shares)
    ∧ (s.reserve_a = 0 → s.reserve_b = 0 → s.total_shares = 0 →
        ∀ r s', (deposit s now in_a in_b).2 = .ok (r, s') →
          s'.total_shares - s.total_shares =
            Int.sqrt ((s.balance_a + in_a) * (s.balance_b + in_b))) := by
  constructor
  · intro hT hra hrb r s' h
    rw [deposit_eq] at h
    have hs' := ((Prod.mk.injEq _ _ _ _).mp (Except.ok.inj h)).2.symm
    rw [hs']
    show s.total_shares + (depositNewTotal s in_a in_b - s.total_shares) -
      s.total_shares = _
    rw [depositNewTotal, if_pos ⟨hra, hrb⟩]
    ring
  · intro hra hrb hT r s' h
    rw [deposit_eq] at h
    have hs' := ((Prod.mk.injEq _ _ _ _).mp (Except.ok.inj h)).2.symm
    rw [hs']
    show s.total_shares + (depositNewTotal s in_a in_b - s.total_shares) -
      s.total_shares = _
    rw [depositNewTotal, if_neg (by rw [hra]; simp), hT]
    ring

/-- Witness for C5: depositing (100, 100) into the empty pool mints
`floor(sqrt(100 * 100)) = 100` shares. -/
theorem deposit_minted_shares_witness :
    (depositFinal emptyPool 0 100 100).total_shares - emptyPool.total_shares =
      Int.sqrt ((emptyPool.balance_a + 100) * (emptyPool.balance_b + 100)) ∧
    (depositFinal emptyPool 0 100 100).total_shares = 100 := by
  refine ⟨(deposit_minted_shares emptyPool 0 100 100).2 rfl rfl rfl
    (100, 100) (depositFinal emptyPool 0 100 100) (by rw [deposit_eq]), ?_⟩
  simp [depositFinal, depositNewTotal, emptyPool, Int.sqrt]
  norm_num

/-- Counterexample to C6 as stated: on the donated pool, withdrawing 50 of
100 shares pays out `200 * 50 / 100 = 100` token a, but the stored
reserve_a moves from 100 to `200 - 100 = 100` — a decrease of 0, not of the
payout 100. -/
theorem withdraw_reserve_decrease_counterexample :
    (withdraw stDonated 0 50 0 0).2 =
      .ok ((100, 50),
        { reserve_a := 100, reserve_b := 50, balance_a := 100, balance_b := 50
          balance_shares := 0, total_shares := 50
          config := { tps := 0, expired_at := 0 }
          data := { block := 0, accumulated := 0, last_time := 0 }
          user := { last_block := 0, pool_accumulated := 0, to_claim := 0 }
          user_shares := 50 }) ∧
    ¬ (stDonated.reserve_a - 100 = 100) := by decide

/-- Claim C6 (amended): with `balance_shares` the pool's share-claim
balance after the caller's shares are transferred in, the payout on each
asset is `out_x = balance_x * balance_shares / total_shares` (truncating
integer division); the call fails with `MinNotSatisfied` iff either payout
is below its minimum; on success all of `balance_shares` is burned and each
reserve is set to the pool's token balance minus that side's payout — which
is a decrease by exactly the payout whenever the stored reserve equals the
actual balance, but not in general. -/
theorem withdraw_spec (s : PoolState) (now : Nat) (sa ma mb : Int)
    (h0 : s.total_shares ≠ 0) :
    (withdrawOutA s sa < ma ∨ withdrawOutB s sa < mb →
      (withdraw s now sa ma mb).2 = .error .MinNotSatisfied)
    ∧ (ma ≤ withdrawOutA s sa → mb ≤ withdrawOutB s sa →
        (withdraw s now sa ma mb).2 =
          .ok ((withdrawOutA s sa, withdrawOutB s sa), withdrawFinal s now sa))
    ∧ (∀ r s', (withdraw s now sa ma mb).2 = .ok (r, s') →
        s'.balance_shares = 0
        ∧ s'.total_shares = s.total_shares - (s.balance_shares + sa)
        ∧ s'.reserve_a = s.balance_a - withdrawOutA s sa
        ∧ s'.reserve_b = s.balance_b - withdrawOutB s sa
        ∧ (s.balance_a = s.reserve_a →
            s.reserve_a - s'.reserve_a = withdrawOutA s sa)
        ∧ (s.balance_b = s.reserve_b →
            s.reserve_b - s'.reserve_b = withdrawOutB s sa)) := by
  refine ⟨fun hmin => ?_, fun ha hb => ?_, fun r s' h => ?_⟩
  · have hmin' : Int.tdiv (s.balance_a * (s.balance_shares + sa)) s.total_shares < ma ∨
        Int.tdiv (s.balance_b * (s.balance_shares + sa)) s.total_shares < mb := hmin
    simp [withdraw, h0, hmin']
  · rw [withdraw_ok_intro s now sa ma mb h0 ha hb]
  · obtain ⟨-, -, -, -, hs'⟩ := withdraw_ok_elim h
    subst hs'
    refine ⟨rfl, rfl, rfl, rfl, fun hba => ?_, fun hbb => ?_⟩
    · show s.reserve_a - (s.balance_a - withdrawOutA s sa) = _
      rw [← hba]
      ring
    · show s.reserve_b - (s.balance_b - withdrawOutB s sa) = _
      rw [← hbb]
      ring

/-- Witness for C6 (amended): on the clean 1000/1000 pool, withdrawing 500
of the 1000 shares pays (500, 500), burns the 500 shares and moves both
reserves from 1000 to 500. -/
theorem withdraw_spec_witness :
    (withdraw st0 0 500 0 0).2 =
      .ok ((withdrawOutA st0 500, withdrawOutB st0 500), withdrawFinal st0 0 500) ∧
    withdrawOutA st0 500 = 500 ∧
    (withdrawFinal st0 0 500).reserve_a = 500 :=
  ⟨((withdraw_spec st0 0 500 0 0 (by decide)).2.1 (by decide) (by decide)),
   by decide, by decide⟩

/-- Claim C8: `initialize` fails with `AlreadyInitialized` on a second
call, fails with `InvalidOrdering` unless `token_a < token_b` under the
canonical address ordering, and on success produces the pool with zero
reserves and an all-zero reward accumulator and reward config. -/
theorem init_pool_spec (p : PoolState) (ta tb : Nat) :
    init_pool (some p) ta tb = .error .AlreadyInitialized
    ∧ (tb ≤ ta → init_pool none ta tb = .error .InvalidOrdering)
    ∧ (ta < tb →
        init_pool none ta tb = .ok emptyPool
        ∧ emptyPool.reserve_a = 0 ∧ emptyPool.reserve_b = 0
        ∧ emptyPool.config = { tps := 0, expired_at := 0 }
        ∧ emptyPool.data = { block := 0, accumulated := 0, last_time := 0 }) := by
  refine ⟨by simp [init_pool], fun h => by simp [init_pool, h], fun h => ?_⟩
  exact ⟨by simp [init_pool, Nat.not_le.mpr h, emptyPool], rfl, rfl, rfl, rfl⟩

/-- Witness for C8: with addresses 0 < 1, initialization succeeds once and
then fails; with the order reversed it fails with `InvalidOrdering`. -/
theorem init_pool_spec_witness :
    init_pool none 0 1 = .ok emptyPool
    ∧ init_pool (some emptyPool) 0 1 = .error .AlreadyInitialized
    ∧ init_pool none 1 0 = .error .InvalidOrdering :=
  ⟨((init_pool_spec emptyPool 0 1).2.2 (by decide)).1,
   (init_pool_spec emptyPool 0 1).1,
   (init_pool_spec emptyPool 1 0).2.1 (by decide)⟩

/-- Claim C9: `set_rewards_config` first settles the reward accumulator at
the old config, then installs the new config with
`rate_per_second = amount / (expired_at - now)` (truncating integer
division); it fails whenever `expired_at ≤ now` (underflow of the `u64`
subtraction when below, division by zero when equal). -/
theorem set_rewards_config_spec (s : PoolState) (now ea : Nat) (amt : Int) :
    (ea < now →
      (set_rewards_config s now ea amt).2 = .error .ArithmeticOverflow)
    ∧ (ea = now →
      (set_rewards_config s now ea amt).2 = .error .DivisionByZero)
    ∧ (now < ea →
      (set_rewards_config s now ea amt).2 =
        .ok { s with
          data := update_rewards_data now s.total_shares s.config s.data
          config := { tps := Int.tdiv amt ((ea : Int) - (now : Int))
                      expired_at := ea } }) := by
  refine ⟨fun h => by simp [set_rewards_config, h],
          fun h => by simp [set_rewards_config, h], fun h => ?_⟩
  have h1 : ¬ ea < now := by omega
  have h2 : ¬ ea = now := by omega
  simp [set_rewards_config, h1, h2]

/-- Witness for C9: an expired target fails; a target 100 seconds ahead of
time 0 with amount 600 installs rate 6 after settling the accumulator. -/
theorem set_rewards_config_spec_witness :
    (set_rewards_config st0 5 0 600).2 = .error .ArithmeticOverflow
    ∧ (set_rewards_config st0 0 100 600).2 =
        .ok { st0 with config := { tps := 6, expired_at := 100 } } := by
  refine ⟨(set_rewards_config_spec st0 5 0 600).1 (by decide), ?_⟩
  rw [(set_rewards_config_spec st0 0 100 600).2.2 (by decide)]
  decide

/-- Claim C10: after every successful `deposit`, `swap` or `withdraw`, the
stored reserves equal the pool's actual token balances: `deposit` stores
the post-transfer balances, `swap` and `withdraw` store the post-trade
balance minus the amount just sent out on each side, which is exactly the
final balance. -/
theorem reserves_track_balances (s : PoolState) (now : Nat)
    (in_a in_b : Int) (buy_a : Bool) (out in_max sa ma mb : Int) :
    (∀ r s', (deposit s now in_a in_b).2 = .ok (r, s') →
      s'.reserve_a = s'.balance_a ∧ s'.reserve_b = s'.balance_b)
    ∧ (∀ sell s', (swap s buy_a out in_max).2 = .ok (sell, s') →
      s'.reserve_a = s'.balance_a ∧ s'.reserve_b = s'.balance_b)
    ∧ (∀ r s', (withdraw s now sa ma mb).2 = .ok (r, s') →
      s'.reserve_a = s'.balance_a ∧ s'.reserve_b = s'.balance_b) := by
  refine ⟨fun r s' h => ?_, fun sell s' h => ?_, fun r s' h => ?_⟩
  · rw [deposit_eq] at h
    have hs' := ((Prod.mk.injEq _ _ _ _).mp (Except.ok.inj h)).2.symm
    subst hs'
    exact ⟨rfl, rfl⟩
  · have hs' := (swap_ok_elim h).2.2.2.2
    subst hs'
    exact ⟨rfl, rfl⟩
  · have hs' := (withdraw_ok_elim h).2.2.2.2
    subst hs'
    exact ⟨rfl, rfl⟩

/-- Witness for C10: concrete successful runs of all three operations end
with reserves equal to balances. -/
theorem reserves_track_balances_witness :
    ((depositFinal st0 0 100 100).reserve_a = (depositFinal st0 0 100 100).balance_a
      ∧ (depositFinal st0 0 100 100).reserve_b = (depositFinal st0 0 100 100).balance_b)
    ∧ ((swapFinal st0 true 100).reserve_a = (swapFinal st0 true 100).balance_a
      ∧ (swapFinal st0 true 100).reserve_b = (swapFinal st0 true 100).balance_b)
    ∧ ((withdrawFinal st0 0 500).reserve_a = (withdrawFinal st0 0 500).balance_a
      ∧ (withdrawFinal st0 0 500).reserve_b = (withdrawFinal st0 0 500).balance_b) :=
  ⟨(reserves_track_balances st0 0 100 100 true 100 1000 500 0 0).1
      (100, 100) (depositFinal st0 0 100 100) (by rw [deposit_eq]),
   (reserves_track_balances st0 0 100 100 true 100 1000 500 0 0).2.1
      112 (swapFinal st0 true 100) (by decide),
   (reserves_track_balances st0 0 100 100 true 100 1000 500 0 0).2.2
      (500, 500) (withdrawFinal st0 0 500) (by decide)⟩

/-- Proportional minting never undercounts the prior supply: with a
positive reserve, `(reserve + inflow) * total / reserve` is at least
`total`. -/
lemma total_le_proportional (ra T inx : Int) (hra : 0 < ra) (hT : 0 ≤ T)
    (hx : 0 ≤ inx) : T ≤ Int.tdiv ((ra + inx) * T) ra := by
  have hnum : 0 ≤ (ra + inx) * T := mul_nonneg (by linarith) hT
  rw [Int.tdiv_eq_ediv hnum hra.le]
  exact (Int.le_ediv_iff_mul_le hra).mpr (by nlinarith)

/-- One-sided round-trip bound: if the post-deposit supply `N` is at most
the proportional estimate of this side, then withdrawing the newly minted
`N - T` shares from the post-deposit balance `reserve + inflow` pays out at
most the inflow. -/
lemma roundtrip_side (ra T N inx : Int) (hra : 0 < ra) (hT : 0 < T)
    (hx : 0 ≤ inx) (hNa : N ≤ Int.tdiv ((ra + inx) * T) ra) (hTN : T ≤ N) :
    Int.tdiv ((ra + inx) * (N - T)) N ≤ inx := by
  have hN0 : 0 < N := lt_of_lt_of_le hT hTN
  have hnum : 0 ≤ (ra + inx) * T := mul_nonneg (by linarith) hT.le
  rw [Int.tdiv_eq_ediv hnum hra.le] at hNa
  have h1 : N * ra ≤ (ra + inx) * T := (Int.le_ediv_iff_mul_le hra).mp hNa
  have h2 : (ra + inx) * (N - T) ≤ inx * N := by nlinarith
  have h3 : 0 ≤ (ra + inx) * (N - T) := mul_nonneg (by linarith) (by linarith)
  rw [Int.tdiv_eq_ediv h3 hN0.le]
  calc (ra + inx) * (N - T) / N ≤ inx * N / N := Int.ediv_le_ediv hN0 h2
    _ = inx := Int.mul_ediv_cancel inx hN0.ne'

/-- Claim C7: from a consistent pool state (balances matching reserves, no
residual share-claim balance, reserves and supply jointly zero or jointly
positive), depositing any nonnegative amounts and then immediately
withdrawing all shares minted by that deposit returns no more of either
asset than the deposit accepted. -/
theorem deposit_withdraw_roundtrip (s : PoolState) (now now2 : Nat)
    (in_a in_b ma mb : Int)
    (hba : s.balance_a = s.reserve_a) (hbb : s.balance_b = s.reserve_b)
    (hbs : s.balance_shares = 0) (hia : 0 ≤ in_a) (hib : 0 ≤ in_b)
    (hwf : (0 < s.reserve_a ∧ 0 < s.reserve_b ∧ 0 < s.total_shares)
        ∨ (s.reserve_a = 0 ∧ s.reserve_b = 0 ∧ s.total_shares = 0)) :
    ∀ r s', (deposit s now in_a in_b).2 = .ok (r, s') →
    ∀ oa ob s'', (withdraw s' now2 (s'.total_shares - s.total_shares) ma mb).2
        = .ok ((oa, ob), s'') →
    oa ≤ in_a ∧ ob ≤ in_b := by
  intro r s' hdep oa ob s'' hwd
  rw [deposit_eq] at hdep
  have hs' := ((Prod.mk.injEq _ _ _ _).mp (Except.ok.inj hdep)).2.symm
  subst hs'
  obtain ⟨h0, -, -, hr, -⟩ := withdraw_ok_elim hwd
  obtain ⟨hoa, hob⟩ := (Prod.mk.injEq _ _ _ _).mp hr
  have hTS : (depositFinal s now in_a in_b).total_shares =
      depositNewTotal s in_a in_b := by
    show s.total_shares + (depositNewTotal s in_a in_b - s.total_shares) = _
    ring
  have hsh : (depositFinal s now in_a in_b).balance_shares +
      ((depositFinal s now in_a in_b).total_shares - s.total_shares) =
      depositNewTotal s in_a in_b - s.total_shares := by
    show s.balance_shares +
      (s.total_shares + (depositNewTotal s in_a in_b - s.total_shares)
        - s.total_shares) = _
    rw [hbs]
    ring
  have hBA : (depositFinal s now in_a in_b).balance_a = s.balance_a + in_a := rfl
  have hBB : (depositFinal s now in_a in_b).balance_b = s.balance_b + in_b := rfl
  have hoa' : oa = Int.tdiv
      ((s.balance_a + in_a) * (depositNewTotal s in_a in_b - s.total_shares))
      (depositNewTotal s in_a in_b) := by
    rw [hoa]
    unfold withdrawOutA
    rw [hsh, hTS, hBA]
  have hob' : ob = Int.tdiv
      ((s.balance_b + in_b) * (depositNewTotal s in_a in_b - s.total_shares))
      (depositNewTotal s in_a in_b) := by
    rw [hob]
    unfold withdrawOutB
    rw [hsh, hTS, hBB]
  rcases hwf with ⟨hra, hrb, hT⟩ | ⟨hra, hrb, hT⟩
  · have hNdef : depositNewTotal s in_a in_b =
        min (Int.tdiv ((s.reserve_a + in_a) * s.total_shares) s.reserve_a)
            (Int.tdiv ((s.reserve_b + in_b) * s.total_shares) s.reserve_b) := by
      unfold depositNewTotal
      rw [if_pos ⟨hra, hrb⟩, hba, hbb]
    have hNa : depositNewTotal s in_a in_b ≤
        Int.tdiv ((s.reserve_a + in_a) * s.total_shares) s.reserve_a := by
      rw [hNdef]
      exact min_le_left _ _
    have hNb : depositNewTotal s in_a in_b ≤
        Int.tdiv ((s.reserve_b + in_b) * s.total_shares) s.reserve_b := by
      rw [hNdef]
      exact min_le_right _ _
    have hTN : s.total_shares ≤ depositNewTotal s in_a in_b := by
      rw [hNdef]
      exact le_min (total_le_proportional _ _ _ hra hT.le hia)
        (total_le_proportional _ _ _ hrb hT.le hib)
    rw [hoa', hob', hba, hbb]
    exact ⟨roundtrip_side _ _ _ _ hra hT hia hNa hTN,
           roundtrip_side _ _ _ _ hrb hT hib hNb hTN⟩
  · have hN0 : depositNewTotal s in_a in_b ≠ 0 := by
      intro hz
      exact h0 (hTS.trans hz)
    have hNpos : 0 < depositNewTotal s in_a in_b := by
      have hnn : 0 ≤ depositNewTotal s in_a in_b := by
        unfold depositNewTotal
        rw [if_neg (by rw [hra]; simp)]
        exact Int.sqrt_nonneg _
      exact lt_of_le_of_ne hnn (Ne.symm hN0)
    rw [hoa', hob', hba, hbb, hra, hrb, hT]
    simp only [zero_add, sub_zero]
    constructor
    · rw [Int.tdiv_eq_ediv (mul_nonneg hia hNpos.le) hNpos.le,
        Int.mul_ediv_cancel _ hN0]
    · rw [Int.tdiv_eq_ediv (mul_nonneg hib hNpos.le) hNpos.le,
        Int.mul_ediv_cancel _ hN0]

/-- Witness for C7: on the 1000/1000 pool with 1000 shares, depositing
(500, 500) mints 500 shares, and withdrawing those 500 shares pays back
exactly (500, 500) — no more than was deposited. -/
theorem deposit_withdraw_roundtrip_witness :
    (deposit st0 0 500 500).2 = .ok ((500, 500), depositFinal st0 0 500 500) ∧
    ((500 : Int) ≤ 500 ∧ (500 : Int) ≤ 500) :=
  ⟨by rw [deposit_eq],
   deposit_withdraw_roundtrip st0 0 0 500 500 0 0 rfl rfl rfl
     (by decide) (by decide) (Or.inl (by decide))
     (500, 500) (depositFinal st0 0 500 500) (by rw [deposit_eq])
     500 500
     (withdrawFinal (depositFinal st0 0 500 500) 0
       ((depositFinal st0 0 500 500).total_shares - st0.total_shares))
     (by decide)⟩

end SorobanAmm
